import Mathlib

/-
  Verification development for the vibeify-api Common Crawl retrieval pipeline.

  Shallow embedding of the core pipeline code:
    - services/crawled_page.py  (_lookup_common_crawl_hit, _fetch_warc_record,
      _unchunk, _extract_html_from_warc, fetch_from_common_crawl_and_persist,
      get_by_url, upload_and_persist_html)
    - tasks/orchestrators/discovery.py (orchestrate_discovery)
    - repository/s3.py (generate_key), repository/base.py (create/update)

  Bytes are modelled as `List Nat` (byte values); Python strings as Lean
  `String`.  Python-level primitives (slicing with negative indices,
  `bytes.find`, `int(x, 16)`, `str.strip`, `str.lower`, `str.splitlines`,
  `urlparse(...).netloc`) are embedded with their documented CPython
  semantics on the value ranges the code can produce (latin-1 text for
  header blocks, ASCII index responses).  External collaborators
  (`gzip.decompress`, the network, the clock, `uuid4`) are environment
  parameters.  The stdlib `json.loads` is modelled on the class of inputs
  the index interface produces: flat JSON objects with string keys and
  string values (spec section 6).
-/

/-! ### Python byte/string primitives -/

abbrev Bytes := List Nat

/-- Normalise a Python slice endpoint: negative values count from the end
    (clamped at 0), positive values are clamped at the length. -/
def pyIdx (len : Nat) (i : Int) : Nat :=
  if i < 0 then ((len : Int) + i).toNat else min len i.toNat

/-- Python slice `data[start:stop]` with full negative-index semantics. -/
def pySlice (data : Bytes) (start stop : Int) : Bytes :=
  (data.take (pyIdx data.length stop)).drop (pyIdx data.length start)

/-- Whether `pat` occurs at the front of `l`. -/
def startsWithL {α : Type} [DecidableEq α] : List α → List α → Bool
  | [], _ => true
  | _ :: _, [] => false
  | a :: as, b :: bs => if a = b then startsWithL as bs else false

/-- First index, counting from `k`, at which `pat` occurs in the scanned
    suffix. -/
def findSubAux {α : Type} [DecidableEq α] (pat : List α) : List α → Nat → Option Nat
  | [], k => if pat = [] then some k else none
  | a :: rest, k =>
      if startsWithL pat (a :: rest) then some k else findSubAux pat rest (k + 1)

/-- Python `data.find(pat, start)` (returning `none` instead of `-1`),
    including the normalisation of a negative `start`. -/
def bytesFind (data pat : Bytes) (start : Int) : Option Nat :=
  let s := pyIdx data.length start
  findSubAux pat (data.drop s) s

/-- Python `bytes.strip()`: ASCII whitespace bytes 9-13 and 32. -/
def byteIsSpace (b : Nat) : Bool := (9 ≤ b ∧ b ≤ 13) ∨ b = 32

/-- Python `bytes.strip()`. -/
def bytesStrip (b : Bytes) : Bytes :=
  ((b.dropWhile byteIsSpace).reverse.dropWhile byteIsSpace).reverse

/-- Python `data.split(b";", 1)[0]`: the part before the first semicolon. -/
def splitSemiFirst (b : Bytes) : Bytes := b.takeWhile (fun c => ¬ c = 59)

/-- Value of one hexadecimal digit byte. -/
def hexVal (b : Nat) : Option Nat :=
  if 48 ≤ b ∧ b ≤ 57 then some (b - 48)
  else if 97 ≤ b ∧ b ≤ 102 then some (b - 87)
  else if 65 ≤ b ∧ b ≤ 70 then some (b - 55)
  else none

/-- Hex digit run with CPython underscore rules: an underscore must sit
    between two digits. `acc` holds the digits read so far. -/
def hexDigitsRun : List Nat → Nat → Option Nat
  | [], acc => some acc
  | b :: rest, acc =>
      match hexVal b with
      | some v => hexDigitsRun rest (acc * 16 + v)
      | none =>
          if b = 95 then
            match rest with
            | r :: rest2 =>
                match hexVal r with
                | some v => hexDigitsRun rest2 (acc * 16 + v)
                | none => none
            | [] => none
          else none

/-- Python `int(x, 16)` on an already-stripped byte token: optional sign,
    optional `0x`/`0X` prefix (which may be followed by one underscore),
    then hex digits with single underscores between digits. -/
def pyIntHex (ls : Bytes) : Option Int :=
  let signed : Bool × Bytes :=
    match ls with
    | 43 :: r => (false, r)
    | 45 :: r => (true, r)
    | r => (false, r)
  let body : Bytes :=
    match signed.2 with
    | 48 :: x :: rest =>
        if x = 120 ∨ x = 88 then
          match rest with
          | 95 :: rr => rr
          | rr => rr
        else signed.2
    | r => r
  match body with
  | b :: rest =>
      match hexVal b with
      | some v =>
          match hexDigitsRun rest v with
          | some n => some (if signed.1 then -(n : Int) else (n : Int))
          | none => none
      | none => none
  | [] => none

/-- Value of one decimal digit byte/codepoint. -/
def decVal (b : Nat) : Option Nat :=
  if 48 ≤ b ∧ b ≤ 57 then some (b - 48) else none

/-- Decimal digit run with CPython underscore rules. -/
def decDigitsRun : List Nat → Nat → Option Nat
  | [], acc => some acc
  | b :: rest, acc =>
      match decVal b with
      | some v => decDigitsRun rest (acc * 10 + v)
      | none =>
          if b = 95 then
            match rest with
            | r :: rest2 =>
                match decVal r with
                | some v => decDigitsRun rest2 (acc * 10 + v)
                | none => none
            | [] => none
          else none

/-- Python str-level whitespace (`str.strip`, and the stripping done by
    `int(...)`): the characters for which `c.isspace()` holds. -/
def pyIsSpace (c : Char) : Bool :=
  let n := c.toNat
  (9 ≤ n ∧ n ≤ 13) ∨ (28 ≤ n ∧ n ≤ 32) ∨ n = 133 ∨ n = 160 ∨ n = 5760 ∨
    (8192 ≤ n ∧ n ≤ 8202) ∨ n = 8232 ∨ n = 8233 ∨ n = 8239 ∨ n = 8287 ∨ n = 12288

/-- Python `str.strip()`. -/
def pyStrip (s : String) : String :=
  String.mk (((s.toList.dropWhile pyIsSpace).reverse.dropWhile pyIsSpace).reverse)

/-- Python `int(s)` (base 10) on a string: strips whitespace, then an
    optional sign and ASCII decimal digits with single underscores between
    digits.  (Non-ASCII unicode digits, which never occur in index
    responses, are not modelled.) -/
def pyIntDec (s : String) : Option Int :=
  let ls := (pyStrip s).toList.map Char.toNat
  let signed : Bool × List Nat :=
    match ls with
    | 43 :: r => (false, r)
    | 45 :: r => (true, r)
    | r => (false, r)
  match signed.2 with
  | b :: rest =>
      match decVal b with
      | some v =>
          match decDigitsRun rest v with
          | some n => some (if signed.1 then -(n : Int) else (n : Int))
          | none => none
      | none => none
  | [] => none

/-- Python `str.lower()` on the latin-1 range (all characters the header
    decoder can produce): ASCII A-Z and the latin-1 capitals C0-DE except
    the multiplication sign D7. -/
def pyLowerChar (c : Char) : Char :=
  let n := c.toNat
  if 65 ≤ n ∧ n ≤ 90 then Char.ofNat (n + 32)
  else if 192 ≤ n ∧ n ≤ 222 ∧ ¬ n = 215 then Char.ofNat (n + 32)
  else c

/-- Python `str.lower()`. -/
def pyLower (s : String) : String := String.mk (s.toList.map pyLowerChar)

/-- Characters that `str.splitlines` treats as a line boundary
    (besides the two-character `\r\n` and the lone `\r`). -/
def isLineBreakChar (c : Char) : Bool :=
  let n := c.toNat
  n = 10 ∨ n = 11 ∨ n = 12 ∨ n = 28 ∨ n = 29 ∨ n = 30 ∨ n = 133 ∨ n = 8232 ∨ n = 8233

/-- Worker for `pySplitlines`; `cur` is the reversed current line. -/
def splitlinesGo : List Char → List Char → List String
  | cur, [] => if cur = [] then [] else [String.mk cur.reverse]
  | cur, [c] =>
      if c.toNat = 13 ∨ isLineBreakChar c then [String.mk cur.reverse]
      else [String.mk (c :: cur).reverse]
  | cur, c :: c2 :: rest =>
      if c.toNat = 13 then
        if c2.toNat = 10 then String.mk cur.reverse :: splitlinesGo [] rest
        else String.mk cur.reverse :: splitlinesGo [] (c2 :: rest)
      else if isLineBreakChar c then String.mk cur.reverse :: splitlinesGo [] (c2 :: rest)
      else splitlinesGo (c :: cur) (c2 :: rest)

/-- Python `str.splitlines()`. -/
def pySplitlines (s : String) : List String := splitlinesGo [] s.toList

/-- Python `line.split(":", 1)` when a colon is present. -/
def splitFirstColon (s : String) : Option (String × String) :=
  let p := s.toList.span (fun c => ¬ c.toNat = 58)
  match p.2 with
  | [] => none
  | _ :: v => some (String.mk p.1, String.mk v)

/-- Python dict insertion: overwrite the value of an existing key in
    place, else append the binding. -/
def dictUpsert : List (String × String) → String → String → List (String × String)
  | [], k, v => [(k, v)]
  | (k0, v0) :: rest, k, v =>
      if k0 = k then (k0, v) :: rest else (k0, v0) :: dictUpsert rest k v

/-- Python `d.get(k)` for a dict built by `dictUpsert` (keys are unique). -/
def assocGet : List (String × String) → String → Option String
  | [], _ => none
  | (k0, v0) :: rest, k => if k0 = k then some v0 else assocGet rest k

/-- Python `d.get(k, dflt)`. -/
def dictGetD (d : List (String × String)) (k dflt : String) : String :=
  (assocGet d k).getD dflt

/-- Python `bytes.decode("iso-8859-1")`: byte value = codepoint. -/
def decodeLatin1 (bs : Bytes) : String := String.mk (bs.map Char.ofNat)

/-- Encode an ASCII Lean string literal as bytes (used for test vectors). -/
def strToBytes (s : String) : Bytes := s.toList.map Char.toNat

/-- Substring scan worker (Python `needle in hay`). -/
def hasSubL (pat : List Char) : List Char → Bool
  | [] => startsWithL pat []
  | c :: rest => if startsWithL pat (c :: rest) then true else hasSubL pat rest

/-- Python `needle in hay` on strings. -/
def hasSub (needle hay : String) : Bool := hasSubL needle.toList hay.toList

/-- Worker for `splitOnCRLF`; `cur` is the reversed current segment. -/
def splitCRLFGo : List Char → List Char → List (List Char)
  | cur, [] => [cur.reverse]
  | cur, [c] => [(c :: cur).reverse]
  | cur, c :: c2 :: rest =>
      if c.toNat = 13 ∧ c2.toNat = 10 then cur.reverse :: splitCRLFGo [] rest
      else splitCRLFGo (c :: cur) (c2 :: rest)

/-- Python `s.split("\r\n")`: non-overlapping left-to-right splitting,
    empty segments kept. -/
def splitOnCRLF (s : String) : List String := (splitCRLFGo [] s.toList).map String.mk

/-- Python `s.replace(a, b)` for single-character patterns. -/
def replaceChar (s : String) (a b : Char) : String :=
  String.mk (s.toList.map (fun c => if c = a then b else c))


/-! ### The chunked transfer-encoding decoder (`_unchunk`)

The Python loop is not structurally terminating (and, as proved below, it
does not terminate on every input), so it is embedded with a fuel
parameter: `none` means the loop has not finished within `fuel`
iterations.  One unit of fuel is one iteration of the `while True` loop.
The loop index `i` is an `Int` because Python slice/find arguments can go
negative when a chunk-size token parses as a negative number. -/

def unchunkFuel (data : Bytes) : Nat → Int → Bytes → Option Bytes
  | 0, _, _ => none
  | fuel + 1, i, out =>
      match bytesFind data [13, 10] i with
      | none => some out
      | some j =>
          let size_line := bytesStrip (splitSemiFirst (pySlice data i (j : Int)))
          match pyIntHex size_line with
          | none => some out
          | some size =>
              let i2 : Int := (j : Int) + 2
              if size = 0 then some out
              else
                unchunkFuel data fuel (i2 + size + 2) (out ++ pySlice data i2 (i2 + size))

/-! ### The capture record parser (`_extract_html_from_warc`) -/

/-- Archive-record framing step: the payload after the first blank-line
    separator, or the whole record when the separator is absent. -/
def warcPayload (record_bytes : Bytes) : Bytes :=
  match bytesFind record_bytes [13, 10, 13, 10] 0 with
  | some warc_sep => record_bytes.drop (warc_sep + 4)
  | none => record_bytes

/-- Header-line parsing: colon-delimited, keys stripped and lowered,
    values stripped, later duplicates overwriting (Python dict update).
    Lines without a colon are skipped. -/
def parseHeaderLines (lines : List String) : List (String × String) :=
  lines.foldl
    (fun hs line =>
      match splitFirstColon line with
      | some kv => dictUpsert hs (pyLower (pyStrip kv.1)) (pyStrip kv.2)
      | none => hs)
    []

/-- The embedded response's header mapping, when the second blank-line
    separator exists. -/
def recordHeaders (record_bytes : Bytes) : Option (List (String × String)) :=
  let payload := warcPayload record_bytes
  match bytesFind payload [13, 10, 13, 10] 0 with
  | none => none
  | some http_sep =>
      some (parseHeaderLines
        ((splitOnCRLF (decodeLatin1 (payload.take http_sep))).drop 1))

/-- Transfer-decoding, content-decoding and media-type validation steps on
    the split body. `gunzip` models `gzip.decompress` (`none` = raises). -/
def extractSteps (gunzip : Bytes → Option Bytes) (fuel : Nat)
    (headers : List (String × String)) (body : Bytes) :
    Option (Except String (Bytes × String)) :=
  let step1 : Option Bytes :=
    if pyLower (dictGetD headers "transfer-encoding" "") = "chunked"
    then unchunkFuel body fuel 0 []
    else some body
  match step1 with
  | none => none
  | some body1 =>
      let body2 :=
        if pyLower (dictGetD headers "content-encoding" "") = "gzip"
        then (gunzip body1).getD body1
        else body1
      let content_type := dictGetD headers "content-type" "text/html"
      if hasSub "text/html" (pyLower content_type)
      then some (Except.ok (body2, content_type))
      else some (Except.error ("Non-HTML content-type in WARC response: " ++ content_type))

/-- The full capture-record parser `_extract_html_from_warc`.  The outer
    `Option` is fuel exhaustion inside `_unchunk`; the `Except` carries
    the raised `ValueError` message. -/
def extractHtmlFromWarc (gunzip : Bytes → Option Bytes) (fuel : Nat)
    (record_bytes : Bytes) : Option (Except String (Bytes × String)) :=
  let payload := warcPayload record_bytes
  match bytesFind payload [13, 10, 13, 10] 0 with
  | none => some (Except.error "Unable to parse HTTP response from WARC record")
  | some http_sep =>
      extractSteps gunzip fuel
        (parseHeaderLines
          ((splitOnCRLF (decodeLatin1 (payload.take http_sep))).drop 1))
        (payload.drop (http_sep + 4))

/-! ### Index lookup (`_lookup_common_crawl_hit`)

The decoded response body is the input; `json.loads` of the stdlib is
modelled (`jsonLoadsFlat`) on the input class the index interface
produces per spec section 6: flat JSON objects with string keys and
string values.  A non-object or non-string-valued line is a decode error
in the model.  Decode-error messages are not reproduced verbatim; no
theorem inspects them. -/

def jsonWsChar (c : Char) : Bool :=
  c.toNat = 32 ∨ c.toNat = 9 ∨ c.toNat = 10 ∨ c.toNat = 13

/-- JSON string body after the opening quote; handles the standard
    escapes. `acc` is the reversed content so far. -/
def jsonStringGo : List Char → List Char → Option (String × List Char)
  | _, [] => none
  | acc, c :: rest =>
      if c.toNat = 34 then some (String.mk acc.reverse, rest)
      else if c.toNat = 92 then
        match rest with
        | [] => none
        | e :: rest2 =>
            if e.toNat = 34 then jsonStringGo (Char.ofNat 34 :: acc) rest2
            else if e.toNat = 92 then jsonStringGo (Char.ofNat 92 :: acc) rest2
            else if e.toNat = 47 then jsonStringGo (Char.ofNat 47 :: acc) rest2
            else if e.toNat = 98 then jsonStringGo (Char.ofNat 8 :: acc) rest2
            else if e.toNat = 102 then jsonStringGo (Char.ofNat 12 :: acc) rest2
            else if e.toNat = 110 then jsonStringGo (Char.ofNat 10 :: acc) rest2
            else if e.toNat = 114 then jsonStringGo (Char.ofNat 13 :: acc) rest2
            else if e.toNat = 116 then jsonStringGo (Char.ofNat 9 :: acc) rest2
            else if e.toNat = 117 then
              match rest2 with
              | h1 :: h2 :: h3 :: h4 :: rest3 =>
                  match hexVal h1.toNat, hexVal h2.toNat, hexVal h3.toNat, hexVal h4.toNat with
                  | some a, some b, some c3, some d =>
                      jsonStringGo (Char.ofNat (((a * 16 + b) * 16 + c3) * 16 + d) :: acc) rest3
                  | _, _, _, _ => none
              | _ => none
            else none
      else if c.toNat < 32 then none
      else jsonStringGo (c :: acc) rest

/-- Member list of a flat string-valued JSON object, positioned at the
    start of a key (whitespace already skipped).  Fuel bounds the loop;
    callers pass more fuel than the input length. -/
def jsonMembers : Nat → List Char → List (String × String) →
    Option (List (String × String) × List Char)
  | 0, _, _ => none
  | _ + 1, [], _ => none
  | fuel + 1, c :: rest, acc =>
      if c.toNat = 34 then
        match jsonStringGo [] rest with
        | none => none
        | some (k, r1) =>
            match r1.dropWhile jsonWsChar with
            | [] => none
            | c2 :: r3 =>
                if c2.toNat = 58 then
                  match r3.dropWhile jsonWsChar with
                  | [] => none
                  | c3 :: r5 =>
                      if c3.toNat = 34 then
                        match jsonStringGo [] r5 with
                        | none => none
                        | some (v, r6) =>
                            match r6.dropWhile jsonWsChar with
                            | [] => none
                            | c4 :: r8 =>
                                if c4.toNat = 44 then
                                  jsonMembers fuel (r8.dropWhile jsonWsChar) (dictUpsert acc k v)
                                else if c4.toNat = 125 then
                                  some (dictUpsert acc k v, r8)
                                else none
                      else none
                else none
      else none

/-- Model of stdlib `json.loads` on flat string-valued objects. -/
def jsonLoadsFlat (s : String) : Except String (List (String × String)) :=
  match s.toList.dropWhile jsonWsChar with
  | [] => Except.error "Expecting value"
  | c :: rest =>
      if c.toNat = 123 then
        match rest.dropWhile jsonWsChar with
        | [] => Except.error "Expecting property name"
        | c2 :: r2 =>
            if c2.toNat = 125 then
              if r2.dropWhile jsonWsChar = [] then Except.ok []
              else Except.error "Extra data"
            else
              match jsonMembers (s.length + 1) (rest.dropWhile jsonWsChar) [] with
              | some (obj, rem) =>
                  if rem.dropWhile jsonWsChar = [] then Except.ok obj
                  else Except.error "Extra data"
              | none => Except.error "Expecting value"
      else Except.error "Expecting value"

structure CommonCrawlHit where
  warc_filename : String
  warc_offset : Int
  warc_length : Int
  digest : Option String
deriving DecidableEq

/-- Python repr of a string, as interpolated into error messages (quote
    and escape handling beyond the plain case is not modelled; theorems
    only interpolate quote-free ASCII strings). -/
def pyReprStr (s : String) : String := "\x27" ++ s ++ "\x27"

/-- Python `str(obj)` of the parsed flat dict, as interpolated into the
    invalid-response message. -/
def pyReprObj (obj : List (String × String)) : String :=
  "\x7b" ++
    String.intercalate ", " (obj.map (fun kv => pyReprStr kv.1 ++ ": " ++ pyReprStr kv.2)) ++
  "\x7d"

/-- The non-blank lines of the decoded index response. -/
def nonBlankLines (body : String) : List String :=
  (pySplitlines body).filter (fun ln => ¬ pyStrip ln = "")

/-- The index lookup `_lookup_common_crawl_hit`, as a function of the
    decoded response body.  Errors carry the raised ValueError message
    (`int()` conversion failures included). -/
def lookupCommonCrawlHit (body url crawl : String) : Except String CommonCrawlHit :=
  match nonBlankLines body with
  | [] => Except.error ("No Common Crawl CDX results for url=" ++ url ++ " crawl=" ++ crawl)
  | ln :: _ =>
      match jsonLoadsFlat ln with
      | Except.error e => Except.error e
      | Except.ok obj =>
          match assocGet obj "filename", assocGet obj "offset", assocGet obj "length" with
          | some f, some o, some l =>
              if f = "" then
                Except.error ("Invalid CDX response for url=" ++ url ++ ": " ++ pyReprObj obj)
              else
                match pyIntDec o with
                | none => Except.error ("invalid literal for int() with base 10: " ++ pyReprStr o)
                | some oi =>
                    match pyIntDec l with
                    | none => Except.error ("invalid literal for int() with base 10: " ++ pyReprStr l)
                    | some li => Except.ok ⟨f, oi, li, assocGet obj "digest"⟩
          | _, _, _ =>
              Except.error ("Invalid CDX response for url=" ++ url ++ ": " ++ pyReprObj obj)

/-! ### Container range fetch (`_fetch_warc_record`) -/

structure RangeRequest where
  url : String
  rangeHeader : String
deriving DecidableEq

/-- The pipeline environment: the external collaborators' behaviour for
    one call.  `gunzip` models `gzip.decompress` (`none` = raises);
    `warcRaw` is the ranged-fetch response body; `cdxBody` the decoded
    index response; `datePrefix`/`keySuffix` the clock and uuid4 inputs of
    `S3Repository.generate_key`; `now` the `datetime.utcnow()` value used
    for `crawled_at`. -/
structure FetchEnv where
  cdxBody : String
  warcRaw : Bytes
  gunzip : Bytes → Option Bytes
  datePrefix : String
  keySuffix : String
  bucketName : String
  now : Nat

/-- `_fetch_warc_record`: the issued ranged request and the (gzip-inflated
    when possible, otherwise raw) record bytes. -/
def fetchWarcRecord (env : FetchEnv) (hit : CommonCrawlHit) : RangeRequest × Bytes :=
  let warc_url := "https://data.commoncrawl.org/" ++ hit.warc_filename
  let e := hit.warc_offset + hit.warc_length - 1
  let req : RangeRequest :=
    ⟨warc_url, "bytes=" ++ toString hit.warc_offset ++ "-" ++ toString e⟩
  (req, (env.gunzip env.warcRaw).getD env.warcRaw)

/-! ### Persistence/dedup layer -/

structure CrawledPage where
  id : Nat
  url : String
  data_origin : String
  target_application : Option String
  crawled_at : Nat
  content_digest : Option String
  s3_key : String
  s3_bucket : String
  user_id : Option Int
deriving DecidableEq

/-- The relational store: current rows plus the next autoincrement id. -/
structure DB where
  rows : List CrawledPage
  nextId : Nat
deriving DecidableEq

/-- The natural-key match used by `get_by_url` (NULL-aware equality on
    `target_application`). -/
def keyMatches (r : CrawledPage) (url data_origin : String)
    (target_application : Option String) : Bool :=
  r.url = url ∧ r.data_origin = data_origin ∧ r.target_application = target_application

/-- `get_by_url`: `scalar_one_or_none` over the natural-key filter. -/
def getByUrl (db : DB) (url data_origin : String)
    (target_application : Option String) : Except String (Option CrawledPage) :=
  match db.rows.filter (fun r => keyMatches r url data_origin target_application) with
  | [] => Except.ok none
  | [r] => Except.ok (some r)
  | _ => Except.error "Multiple rows were found when one or none was required"

/-- Scheme characters accepted by `urllib.parse` after the initial
    letter. -/
def isSchemeChar (c : Char) : Bool :=
  c.isAlpha ∨ c.isDigit ∨ c.toNat = 43 ∨ c.toNat = 45 ∨ c.toNat = 46

/-- `urlparse(url).netloc`: strip a well-formed `scheme:` prefix, then
    read the authority after `//` up to the first of `/`, `?`, `#`. -/
def urlNetloc (url : String) : String :=
  let l := url.toList
  let p := l.span (fun c => ¬ c.toNat = 58)
  let rest : List Char :=
    match p.2 with
    | _ :: afterColon =>
        match p.1 with
        | c0 :: schemeRest =>
            if c0.isAlpha ∧ schemeRest.all isSchemeChar then afterColon else l
        | [] => l
    | [] => l
  match rest with
  | c1 :: c2 :: r =>
      if c1.toNat = 47 ∧ c2.toNat = 47 then
        String.mk (r.takeWhile (fun c => ¬ (c.toNat = 47 ∨ c.toNat = 63 ∨ c.toNat = 35)))
      else ""
  | _ => ""

/-- `S3Repository.generate_key`: `{date}/{user_id}/{uuid}-{safe_filename}`
    with the user segment only for a truthy user id. -/
def generateKey (env : FetchEnv) (filename : String) (user_id : Option Int) : String :=
  let safe_filename := replaceChar (replaceChar filename (Char.ofNat 32) (Char.ofNat 95)) (Char.ofNat 47) (Char.ofNat 95)
  match user_id with
  | some uid =>
      if ¬ uid = 0 then
        env.datePrefix ++ "/" ++ toString uid ++ "/" ++ env.keySuffix ++ "-" ++ safe_filename
      else env.datePrefix ++ "/" ++ env.keySuffix ++ "-" ++ safe_filename
  | none => env.datePrefix ++ "/" ++ env.keySuffix ++ "-" ++ safe_filename

structure S3Write where
  key : String
  data : Bytes
  content_type : String
deriving DecidableEq

/-- `upload_and_persist_html`: object-store write plus row update (when
    `existing_id` is set) or insert.  Returns the write, the new store and
    the persisted row (or the raised error). -/
def uploadAndPersistHtml (env : FetchEnv) (db : DB) (url data_origin : String)
    (target_application : Option String) (user_id : Option Int)
    (html_bytes : Bytes) (content_type : String) (content_digest : Option String)
    (existing_id : Option Nat) : S3Write × DB × Except String CrawledPage :=
  let filename := "crawl-" ++ (if urlNetloc url = "" then "site" else urlNetloc url) ++ ".html"
  let s3_key := generateKey env filename user_id
  let w : S3Write := ⟨s3_key, html_bytes, content_type⟩
  match existing_id with
  | some eid =>
      match db.rows.filter (fun r => r.id = eid) with
      | [r] =>
          let r2 : CrawledPage :=
            { r with s3_key := s3_key, s3_bucket := env.bucketName,
                     content_digest := content_digest, crawled_at := env.now }
          (w,
           { db with rows := db.rows.map (fun x =>
               if x.id = eid then
                 { x with s3_key := s3_key, s3_bucket := env.bucketName,
                          content_digest := content_digest, crawled_at := env.now }
               else x) },
           Except.ok r2)
      | [] => (w, db, Except.error "CrawledPageResponse validation of None")
      | _ => (w, db, Except.error "Multiple rows were found when one or none was required")
  | none =>
      let r : CrawledPage :=
        ⟨db.nextId, url, data_origin, target_application, env.now, content_digest,
         s3_key, env.bucketName, user_id⟩
      (w, ⟨db.rows ++ [r], db.nextId + 1⟩, Except.ok r)

/-- The digest short-circuit test of `fetch_from_common_crawl_and_persist`:
    `existing and hit.digest and existing.content_digest == hit.digest`,
    returning the row the call would hand back. -/
def shortCircuitRow (existing : Option CrawledPage) (digest : Option String) :
    Option CrawledPage :=
  match existing, digest with
  | some e, some d => if ¬ d = "" ∧ e.content_digest = some d then some e else none
  | _, _ => none

/-- The observable side effects of one orchestrated fetch. -/
structure Effects where
  rangeRequests : List RangeRequest
  s3Writes : List S3Write
deriving DecidableEq

structure FetchArgs where
  url : String
  data_origin : String
  target_application : Option String
  user_id : Option Int
  crawl : String
deriving DecidableEq

/-- `fetch_from_common_crawl_and_persist`.  The outer `Option` is fuel
    exhaustion inside `_unchunk`; otherwise the result carries the
    effects, the final store and the returned row or raised error. -/
def fetchFromCommonCrawlAndPersist (env : FetchEnv) (fuel : Nat) (db : DB)
    (a : FetchArgs) : Option (Effects × DB × Except String CrawledPage) :=
  match getByUrl db a.url a.data_origin a.target_application with
  | Except.error e => some (⟨[], []⟩, db, Except.error e)
  | Except.ok existing =>
      match lookupCommonCrawlHit env.cdxBody a.url a.crawl with
      | Except.error e => some (⟨[], []⟩, db, Except.error e)
      | Except.ok hit =>
          match shortCircuitRow existing hit.digest with
          | some e => some (⟨[], []⟩, db, Except.ok e)
          | none =>
              let fetched := fetchWarcRecord env hit
              match extractHtmlFromWarc env.gunzip fuel fetched.2 with
              | none => none
              | some (Except.error e) => some (⟨[fetched.1], []⟩, db, Except.error e)
              | some (Except.ok parsed) =>
                  let up := uploadAndPersistHtml env db a.url a.data_origin
                    a.target_application a.user_id parsed.1 parsed.2 hit.digest
                    (existing.map (fun e => e.id))
                  some (⟨[fetched.1], [up.1]⟩, up.2.1, up.2.2)

/-- Well-formedness of the store: row ids are unique (the primary key). -/
def DB.WF (db : DB) : Prop := (db.rows.map (fun r => r.id)).Nodup

/-! ### Job orchestrator (`orchestrate_discovery`) -/

structure EnqueuedJob where
  url : String
  data_origin : String
  target_application : Option String
  crawl : String
  user_id : Option Int
deriving DecidableEq

structure DiscoveryResult where
  input_urls : Nat
  unique_urls : Nat
  enqueued_jobs : Nat
deriving DecidableEq

/-- The dedup loop of `orchestrate_discovery`: skip falsy (empty) or
    already-seen URLs, keep first occurrences in order. -/
def dedupLoop (seen unique : List String) : List String → List String
  | [] => unique
  | u :: rest =>
      if u = "" ∨ u ∈ seen then dedupLoop seen unique rest
      else dedupLoop (u :: seen) (unique ++ [u]) rest

/-- `orchestrate_discovery`: the enqueued jobs, in order, and the returned
    counts. -/
def orchestrateDiscovery (urls : List String) (data_origin : String)
    (target_application : Option String) (crawl : String) (user_id : Option Int) :
    List EnqueuedJob × DiscoveryResult :=
  let unique_urls := dedupLoop [] [] urls
  (unique_urls.map (fun u => ⟨u, data_origin, target_application, crawl, user_id⟩),
   ⟨urls.length, unique_urls.length, unique_urls.length⟩)

/-- The spec's deduplication contract, written from its words: deduplicate
    by exact string equality, preserving first-occurrence order (used to
    compare against the code's dedup loop). -/
def specDedup (urls : List String) : List String :=
  urls.foldl (fun acc u => if u ∈ acc then acc else acc ++ [u]) []

/-! ### Helper lemmas -/

theorem unchunkFuel_neg6_aux :
    ∀ (n : Nat) (out : Bytes), unchunkFuel (strToBytes "-6\r\n") n 0 out = none := by
  intro n
  induction n with
  | zero => intro out; rfl
  | succ n ih =>
      intro out
      show unchunkFuel (strToBytes "-6\r\n") n 0 (out ++ []) = none
      rw [List.append_nil]
      exact ih out

theorem startsWithL_self_append (s t : List Char) : startsWithL s (s ++ t) = true := by
  induction s with
  | nil => rfl
  | cons a as ih => simp [startsWithL, ih]

theorem hasSubL_mid (s a b : List Char) : hasSubL s (a ++ (s ++ b)) = true := by
  induction a with
  | nil =>
      cases s with
      | nil => cases b <;> simp [hasSubL, startsWithL]
      | cons c cs =>
          have h := startsWithL_self_append (c :: cs) b
          simp [hasSubL]
          exact Or.inl h
  | cons x a ih => simp [hasSubL, ih]

theorem toList_append (a b : String) : (a ++ b).toList = a.toList ++ b.toList := rfl

theorem hasSub_mid (s pre post : String) : hasSub s (pre ++ s ++ post) = true := by
  unfold hasSub
  rw [toList_append, toList_append, List.append_assoc]
  exact hasSubL_mid s.toList pre.toList post.toList

theorem hasSub_suffix (s pre : String) : hasSub s (pre ++ s) = true := by
  unfold hasSub
  rw [toList_append]
  have h := hasSubL_mid s.toList pre.toList []
  rw [List.append_nil] at h
  exact h

/-! ### Claim theorems -/

/-- C10: the claim states `_unchunk` is total.  The code is not: on the
    four-byte input b"-6\x0d\x0a" the chunk-size token parses as the
    negative number -6, the empty slice `data[4:-2]` leaves the
    accumulator unchanged and `i += size + 2` returns the index to 0, so
    the `while True` loop revisits the same state forever.  In the fuel
    semantics: no amount of fuel completes the loop. -/
theorem unchunk_divergence :
    ∀ n : Nat, unchunkFuel (strToBytes "-6\r\n") n 0 [] = none :=
  fun n => unchunkFuel_neg6_aux n []

def chunkedRecord : Bytes :=
  strToBytes
    "WARC/1.0\r\nWARC-Type: response\r\n\r\nHTTP/1.1 200 OK\r\nTransfer-Encoding: chunked\r\n\r\n4\r\ntest\r\n0\r\n\r\n"

/-- C4: when the embedded header mapping declares chunked
    transfer-encoding the parser reverses the chunking; the chunked body
    "4\x0d\x0atest\x0d\x0a0\x0d\x0a\x0d\x0a" decodes to exactly the bytes
    "test" (whatever the gzip collaborator does and for any sufficient
    fuel), and a malformed chunk-size token silently terminates
    accumulation with the bytes collected so far. -/
theorem chunked_round_trip :
    (∀ (gunzip : Bytes → Option Bytes) (n : Nat),
        extractHtmlFromWarc gunzip (n + 2) chunkedRecord =
          some (Except.ok (strToBytes "test", "text/html"))) ∧
    (∀ n : Nat,
        unchunkFuel (strToBytes "4\r\ntest\r\n0\r\n\r\n") (n + 2) 0 [] =
          some (strToBytes "test")) ∧
    (∀ n : Nat,
        unchunkFuel (strToBytes "zz\r\ntest\r\n0\r\n\r\n") (n + 1) 0 [] = some []) := by
  refine ⟨fun gunzip n => ?_, fun n => ?_, fun n => ?_⟩ <;> rfl

/-- C5: when the whole input has no blank-line separator it is used as
    the payload unchanged (defensive fallback), and whenever the payload
    has no blank-line separator the parser fails with the ParseError
    message — for every fuel and every gzip collaborator, i.e. before any
    chunked-decoding, gzip-inflation or content-type step runs. -/
theorem missing_separator_parse_error :
    (∀ (record : Bytes) (gunzip : Bytes → Option Bytes) (fuel : Nat),
        bytesFind (warcPayload record) [13, 10, 13, 10] 0 = none →
        extractHtmlFromWarc gunzip fuel record =
          some (Except.error "Unable to parse HTTP response from WARC record")) ∧
    (∀ record : Bytes,
        bytesFind record [13, 10, 13, 10] 0 = none → warcPayload record = record) := by
  constructor
  · intro record gunzip fuel h
    simp only [extractHtmlFromWarc, h]
  · intro record h
    simp only [warcPayload, h]

theorem missing_separator_parse_error_witness :
    bytesFind (warcPayload [65, 66, 67]) [13, 10, 13, 10] 0 = none ∧
    extractHtmlFromWarc (fun _ => none) 0 [65, 66, 67] =
      some (Except.error "Unable to parse HTTP response from WARC record") ∧
    bytesFind [65, 66, 67] [13, 10, 13, 10] 0 = none ∧
    warcPayload [65, 66, 67] = [65, 66, 67] :=
  ⟨by decide, missing_separator_parse_error.1 [65, 66, 67] (fun _ => none) 0 (by decide),
   by decide, missing_separator_parse_error.2 [65, 66, 67] (by decide)⟩

/-- C8: the container fetch requests exactly the byte range
    [offset, offset+length-1] of the archive URL built from the hit's
    filename, then gzip-inflates the response body, returning the raw
    body unchanged when inflation fails. -/
theorem ranged_fetch_contract :
    ∀ (env : FetchEnv) (hit : CommonCrawlHit),
      (fetchWarcRecord env hit).1.url =
        "https://data.commoncrawl.org/" ++ hit.warc_filename ∧
      (fetchWarcRecord env hit).1.rangeHeader =
        "bytes=" ++ toString hit.warc_offset ++ "-" ++
          toString (hit.warc_offset + hit.warc_length - 1) ∧
      (∀ b : Bytes, env.gunzip env.warcRaw = some b → (fetchWarcRecord env hit).2 = b) ∧
      (env.gunzip env.warcRaw = none → (fetchWarcRecord env hit).2 = env.warcRaw) := by
  intro env hit
  refine ⟨rfl, rfl, fun b hb => ?_, fun hb => ?_⟩ <;> simp [fetchWarcRecord, hb]

def envGzOk : FetchEnv := ⟨"", [1, 2, 3], fun _ => some [9, 9], "", "", "", 0⟩

def envGzFail : FetchEnv := ⟨"", [1, 2, 3], fun _ => none, "", "", "", 0⟩

def hitSmall : CommonCrawlHit := ⟨"f.warc.gz", 100, 9, none⟩

theorem ranged_fetch_contract_witness :
    envGzOk.gunzip envGzOk.warcRaw = some [9, 9] ∧
    (fetchWarcRecord envGzOk hitSmall).2 = [9, 9] ∧
    envGzFail.gunzip envGzFail.warcRaw = none ∧
    (fetchWarcRecord envGzFail hitSmall).2 = [1, 2, 3] ∧
    (fetchWarcRecord envGzFail hitSmall).1 =
      ⟨"https://data.commoncrawl.org/f.warc.gz", "bytes=100-108"⟩ :=
  ⟨rfl, (ranged_fetch_contract envGzOk hitSmall).2.2.1 [9, 9] rfl,
   rfl, (ranged_fetch_contract envGzFail hitSmall).2.2.2 rfl, rfl⟩

theorem dedupLoop_eq_foldl :
    ∀ (l seen acc : List String), (∀ x, x ∈ seen ↔ x ∈ acc) → "" ∉ l →
      dedupLoop seen acc l =
        l.foldl (fun acc u => if u ∈ acc then acc else acc ++ [u]) acc := by
  intro l
  induction l with
  | nil => intro seen acc _ _; rfl
  | cons u rest ih =>
      intro seen acc hinv hne
      have hu : ¬ u = "" := fun h => hne (by simp [h])
      have hrest : "" ∉ rest := fun h => hne (List.mem_cons_of_mem _ h)
      by_cases hmem : u ∈ acc
      · have hseen : u ∈ seen := (hinv u).mpr hmem
        rw [dedupLoop, if_pos (Or.inr hseen)]
        rw [List.foldl_cons, if_pos hmem]
        exact ih seen acc hinv hrest
      · have hseen : u ∉ seen := fun h => hmem ((hinv u).mp h)
        rw [dedupLoop, if_neg (by push_neg; exact ⟨fun h => hu (h ▸ rfl), hseen⟩)]
        rw [List.foldl_cons, if_neg hmem]
        refine ih _ _ (fun x => ?_) hrest
        simp only [List.mem_cons, List.mem_append, List.mem_singleton, hinv x]
        tauto

theorem dedupLoop_filter :
    ∀ (l seen acc : List String),
      dedupLoop seen acc (l.filter (fun u => ¬ u = "")) = dedupLoop seen acc l := by
  intro l
  induction l with
  | nil => intro seen acc; rfl
  | cons u rest ih =>
      intro seen acc
      by_cases hu : u = ""
      · subst hu
        rw [List.filter_cons, if_neg (by decide)]
        rw [ih seen acc]
        conv_rhs => rw [dedupLoop, if_pos (Or.inl rfl)]
      · rw [List.filter_cons, if_pos (by simp [hu])]
        by_cases hs : u ∈ seen
        · rw [dedupLoop, if_pos (Or.inr hs)]
          conv_rhs => rw [dedupLoop, if_pos (Or.inr hs)]
          exact ih seen acc
        · rw [dedupLoop, if_neg (by push_neg; exact ⟨hu, hs⟩)]
          conv_rhs => rw [dedupLoop, if_neg (by push_neg; exact ⟨hu, hs⟩)]
          exact ih _ _

theorem dedupLoop_all_ne :
    ∀ (l seen acc : List String), acc.all (fun u => ¬ u = "") = true →
      (dedupLoop seen acc l).all (fun u => ¬ u = "") = true := by
  intro l
  induction l with
  | nil => intro seen acc h; exact h
  | cons u rest ih =>
      intro seen acc h
      by_cases hc : u = "" ∨ u ∈ seen
      · rw [dedupLoop, if_pos hc]; exact ih seen acc h
      · rw [dedupLoop, if_neg hc]
        push_neg at hc
        refine ih _ _ ?_
        rw [List.all_append, h]
        simp [hc.1]

theorem orchestrateDiscovery_def (urls : List String) (d : String) (t : Option String)
    (c : String) (uid : Option Int) :
    orchestrateDiscovery urls d t c uid =
      ((dedupLoop [] [] urls).map (fun u => ⟨u, d, t, c, uid⟩),
       ⟨urls.length, (dedupLoop [] [] urls).length, (dedupLoop [] [] urls).length⟩) := rfl

/-- C3 (amended): the claim holds for every input list that contains no
    empty string: the orchestrator enqueues one job per unique URL, in
    first-occurrence order of the spec's dedup contract, and reports
    inputUrls = list length and uniqueUrls = enqueuedJobs = the number of
    unique URLs; in particular the three-element example reports 3/2/2. -/
theorem dedup_enqueue_amended :
    (∀ (urls : List String) (d : String) (t : Option String) (c : String) (uid : Option Int),
        "" ∉ urls →
        (orchestrateDiscovery urls d t c uid).1 =
          (specDedup urls).map (fun u => ⟨u, d, t, c, uid⟩) ∧
        (orchestrateDiscovery urls d t c uid).1.map (fun j => j.url) = specDedup urls ∧
        (orchestrateDiscovery urls d t c uid).2 =
          ⟨urls.length, (specDedup urls).length, (specDedup urls).length⟩) ∧
    ((orchestrateDiscovery ["https://a", "https://b", "https://a"] "o" none "c" none).1.map
        (fun j => j.url) = ["https://a", "https://b"] ∧
     (orchestrateDiscovery ["https://a", "https://b", "https://a"] "o" none "c" none).2 =
       ⟨3, 2, 2⟩) := by
  constructor
  · intro urls d t c uid hne
    have hd : dedupLoop [] [] urls = specDedup urls :=
      dedupLoop_eq_foldl urls [] [] (by simp) hne
    refine ⟨?_, ?_, ?_⟩
    · rw [orchestrateDiscovery_def, hd]
    · rw [orchestrateDiscovery_def, hd, List.map_map]
      exact List.map_id' _
    · rw [orchestrateDiscovery_def, hd]
  · exact ⟨by decide, by decide⟩

/-- C3 (counterexample): on the input list [""] the code enqueues no job
    and reports uniqueUrls = 0, although the list's unique URLs by exact
    string equality are [""] (one unique URL), so the claim fails as
    stated for this input. -/
theorem dedup_enqueue_cex :
    (orchestrateDiscovery [""] "o" none "c" none).1 = [] ∧
    (orchestrateDiscovery [""] "o" none "c" none).2.unique_urls = 0 ∧
    (orchestrateDiscovery [""] "o" none "c" none).2.enqueued_jobs = 0 ∧
    specDedup [""] = [""] ∧
    (specDedup [""]).length = 1 := by
  refine ⟨rfl, rfl, rfl, rfl, rfl⟩

theorem dedup_enqueue_amended_witness :
    ("" : String) ∉ (["https://a", "https://b", "https://a"] : List String) ∧
    (orchestrateDiscovery ["https://a", "https://b", "https://a"] "o" none "c" none).1 =
      (specDedup ["https://a", "https://b", "https://a"]).map
        (fun u => ⟨u, "o", none, "c", none⟩) :=
  ⟨by decide,
   (dedup_enqueue_amended.1 ["https://a", "https://b", "https://a"] "o" none "c" none
      (by decide)).1⟩

/-- C9: every empty string in the input is silently dropped before
    deduplication: the enqueued jobs and the uniqueUrls/enqueuedJobs
    counts equal those of the empty-string-free sublist, no enqueued job
    carries an empty URL, and inputUrls still counts the dropped
    entries. -/
theorem empty_urls_dropped :
    ∀ (urls : List String) (d : String) (t : Option String) (c : String) (uid : Option Int),
      (orchestrateDiscovery urls d t c uid).1 =
        (orchestrateDiscovery (urls.filter (fun u => ¬ u = "")) d t c uid).1 ∧
      (orchestrateDiscovery urls d t c uid).2.unique_urls =
        (orchestrateDiscovery (urls.filter (fun u => ¬ u = "")) d t c uid).2.unique_urls ∧
      (orchestrateDiscovery urls d t c uid).2.enqueued_jobs =
        (orchestrateDiscovery (urls.filter (fun u => ¬ u = "")) d t c uid).2.enqueued_jobs ∧
      (orchestrateDiscovery urls d t c uid).2.input_urls = urls.length ∧
      ((orchestrateDiscovery urls d t c uid).1.map (fun j => j.url)).all
        (fun u => ¬ u = "") = true := by
  intro urls d t c uid
  have hf := dedupLoop_filter urls [] []
  refine ⟨?_, ?_, ?_, rfl, ?_⟩
  · rw [orchestrateDiscovery_def, orchestrateDiscovery_def, hf]
  · rw [orchestrateDiscovery_def, orchestrateDiscovery_def, hf]
  · rw [orchestrateDiscovery_def, orchestrateDiscovery_def, hf]
  · rw [orchestrateDiscovery_def, List.map_map]
    rw [show ((fun j => EnqueuedJob.url j) ∘ (fun u => EnqueuedJob.mk u d t c uid)) =
      (fun u => u) from rfl, List.map_id']
    exact dedupLoop_all_ne urls [] [] rfl

/-- C1: when a row already exists for the natural key and the fresh index
    hit carries a non-empty digest equal to the stored digest, the call
    performs no container range fetch and no object-store write, leaves
    the store untouched and returns the existing row's data unchanged
    (for every fuel, since the parser never runs). -/
theorem short_circuit_on_matching_digest :
    ∀ (env : FetchEnv) (fuel : Nat) (db : DB) (a : FetchArgs) (row : CrawledPage)
      (hit : CommonCrawlHit) (d : String),
      getByUrl db a.url a.data_origin a.target_application = Except.ok (some row) →
      lookupCommonCrawlHit env.cdxBody a.url a.crawl = Except.ok hit →
      hit.digest = some d → ¬ d = "" → row.content_digest = some d →
      fetchFromCommonCrawlAndPersist env fuel db a =
        some (⟨[], []⟩, db, Except.ok row) := by
  intro env fuel db a row hit d hG hL hd hne hcd
  have hsc : shortCircuitRow (some row) hit.digest = some row := by
    rw [hd]
    show (if ¬ d = "" ∧ row.content_digest = some d then some row else none) = some row
    rw [if_pos ⟨hne, hcd⟩]
  simp only [fetchFromCommonCrawlAndPersist, hG, hL, hsc]

def c1row : CrawledPage :=
  ⟨1, "https://example.com", "commoncrawl", none, 5, some "NEW", "old/key", "bkt", none⟩

def c1db : DB := ⟨[c1row], 2⟩

def c1env : FetchEnv :=
  ⟨"\x7b\"filename\": \"f.warc.gz\", \"offset\": \"100\", \"length\": \"9\", \"digest\": \"NEW\"\x7d",
   [], fun _ => none, "2026/10/12", "u-u-i-d", "bkt", 7⟩

def c1args : FetchArgs := ⟨"https://example.com", "commoncrawl", none, none, "CC-MAIN-2025-51"⟩

def c1hit : CommonCrawlHit := ⟨"f.warc.gz", 100, 9, some "NEW"⟩

theorem short_circuit_witness :
    getByUrl c1db c1args.url c1args.data_origin c1args.target_application =
      Except.ok (some c1row) ∧
    lookupCommonCrawlHit c1env.cdxBody c1args.url c1args.crawl = Except.ok c1hit ∧
    c1hit.digest = some "NEW" ∧
    c1row.content_digest = some "NEW" ∧
    fetchFromCommonCrawlAndPersist c1env 0 c1db c1args =
      some (⟨[], []⟩, c1db, Except.ok c1row) :=
  ⟨rfl, rfl, rfl, rfl,
   short_circuit_on_matching_digest c1env 0 c1db c1args c1row c1hit "NEW"
     rfl rfl rfl (by decide) rfl⟩

theorem getByUrl_mem (db : DB) (u o : String) (t : Option String) (r : CrawledPage) :
    getByUrl db u o t = Except.ok (some r) → r ∈ db.rows := by
  intro h
  unfold getByUrl at h
  rcases hf : db.rows.filter (fun x => keyMatches x u o t) with _ | ⟨x, _ | ⟨y, ys⟩⟩
  · rw [hf] at h
    simp at h
  · rw [hf] at h
    simp only [Except.ok.injEq, Option.some.injEq] at h
    subst h
    exact List.mem_of_mem_filter (hf ▸ List.mem_singleton_self x)
  · rw [hf] at h
    simp at h

theorem filter_id_single :
    ∀ (rows : List CrawledPage) (r : CrawledPage),
      (rows.map (fun x => x.id)).Nodup → r ∈ rows →
      rows.filter (fun x => x.id = r.id) = [r] := by
  intro rows
  induction rows with
  | nil => intro r _ hm; cases hm
  | cons h t ih =>
      intro r hnd hm
      rw [List.map_cons, List.nodup_cons] at hnd
      rcases List.mem_cons.mp hm with heq | hmt
      · subst heq
        rw [List.filter_cons, if_pos (by simp)]
        have hnil : t.filter (fun x => x.id = r.id) = [] := by
          rw [List.filter_eq_nil_iff]
          intro a ha
          simp only [decide_eq_true_eq]
          intro hc
          exact hnd.1 (hc ▸ List.mem_map.mpr ⟨a, ha, rfl⟩)
        rw [hnil]
      · have hne : ¬ h.id = r.id := by
          intro hc
          exact hnd.1 (hc ▸ List.mem_map.mpr ⟨r, hmt, rfl⟩)
        rw [List.filter_cons, if_neg (by simpa using hne)]
        exact ih r hnd.2 hmt

theorem map_id_of_id_preserving (rows : List CrawledPage) (f : CrawledPage → CrawledPage)
    (hf : ∀ x, (f x).id = x.id) :
    (rows.map f).map (fun x => x.id) = rows.map (fun x => x.id) := by
  induction rows with
  | nil => rfl
  | cons h t ih => simp only [List.map_cons, hf, ih]

/-- C2: when a row for the natural key exists and the short-circuit does
    not apply, the call updates that row in place — same id, with only the
    object-store key, bucket, content digest and crawled-at timestamp
    changed — inserting nothing (the row ids of the store are unchanged);
    and when no row exists, exactly one new row (with the next id) is
    appended. -/
theorem update_in_place_or_insert :
    (∀ (env : FetchEnv) (fuel : Nat) (db : DB) (a : FetchArgs) (row : CrawledPage)
        (hit : CommonCrawlHit) (eff : Effects) (db2 : DB) (updated : CrawledPage),
        DB.WF db →
        getByUrl db a.url a.data_origin a.target_application = Except.ok (some row) →
        lookupCommonCrawlHit env.cdxBody a.url a.crawl = Except.ok hit →
        shortCircuitRow (some row) hit.digest = none →
        fetchFromCommonCrawlAndPersist env fuel db a = some (eff, db2, Except.ok updated) →
        updated.id = row.id ∧
        (∃ k, updated = { row with
                          s3_key := k
                          s3_bucket := env.bucketName
                          content_digest := hit.digest
                          crawled_at := env.now }) ∧
        db2.rows = db.rows.map (fun x =>
          if x.id = row.id then
            { x with
              s3_key := updated.s3_key
              s3_bucket := env.bucketName
              content_digest := hit.digest
              crawled_at := env.now }
          else x) ∧
        db2.nextId = db.nextId ∧
        db2.rows.map (fun x => x.id) = db.rows.map (fun x => x.id)) ∧
    (∀ (env : FetchEnv) (fuel : Nat) (db : DB) (a : FetchArgs)
        (eff : Effects) (db2 : DB) (updated : CrawledPage),
        getByUrl db a.url a.data_origin a.target_application = Except.ok none →
        fetchFromCommonCrawlAndPersist env fuel db a = some (eff, db2, Except.ok updated) →
        updated.id = db.nextId ∧
        db2.rows = db.rows ++ [updated] ∧
        db2.nextId = db.nextId + 1 ∧
        updated.url = a.url ∧ updated.data_origin = a.data_origin ∧
        updated.target_application = a.target_application ∧
        updated.user_id = a.user_id) := by
  constructor
  · intro env fuel db a row hit eff db2 updated hWF hG hL hsc hF
    simp only [fetchFromCommonCrawlAndPersist, hG, hL, hsc] at hF
    rcases hx : extractHtmlFromWarc env.gunzip fuel (fetchWarcRecord env hit).2 with
      _ | ⟨e⟩ | ⟨parsed⟩
    · rw [hx] at hF; simp at hF
    · rw [hx] at hF; simp at hF
    · rw [hx] at hF
      have hfil := filter_id_single db.rows row hWF (getByUrl_mem db _ _ _ row hG)
      simp only [uploadAndPersistHtml, Option.map_some', hfil] at hF
      simp only [Option.some.injEq, Prod.mk.injEq, Except.ok.injEq] at hF
      obtain ⟨hEff, hDb, hUpd⟩ := hF
      subst hDb
      subst hUpd
      refine ⟨rfl, ⟨_, rfl⟩, rfl, rfl, ?_⟩
      exact map_id_of_id_preserving db.rows _ (fun x => by split <;> rfl)
  · intro env fuel db a eff db2 updated hG hF
    simp only [fetchFromCommonCrawlAndPersist, hG] at hF
    rcases hL : lookupCommonCrawlHit env.cdxBody a.url a.crawl with _ | ⟨hit⟩
    · rw [hL] at hF; simp at hF
    · rw [hL] at hF
      have hsc : shortCircuitRow none hit.digest = none := by
        rcases hit.digest with _ | _ <;> rfl
      simp only [hsc] at hF
      rcases hx : extractHtmlFromWarc env.gunzip fuel (fetchWarcRecord env hit).2 with
        _ | ⟨e⟩ | ⟨parsed⟩
      · rw [hx] at hF; simp at hF
      · rw [hx] at hF; simp at hF
      · rw [hx] at hF
        simp only [uploadAndPersistHtml, Option.map_none'] at hF
        simp only [Option.some.injEq, Prod.mk.injEq, Except.ok.injEq] at hF
        obtain ⟨hEff, hDb, hUpd⟩ := hF
        subst hDb
        subst hUpd
        exact ⟨rfl, rfl, rfl, rfl, rfl, rfl, rfl⟩

def c2row : CrawledPage :=
  ⟨1, "https://example.com", "commoncrawl", none, 5, some "OLD", "old/key", "bkt", none⟩

def c2db : DB := ⟨[c2row], 2⟩

def c2env : FetchEnv :=
  ⟨"\x7b\"filename\": \"f.warc.gz\", \"offset\": \"100\", \"length\": \"9\", \"digest\": \"NEW\"\x7d",
   strToBytes "WARC/1.0\r\n\r\nHTTP/1.1 200 OK\r\n\r\n<html>hi",
   fun _ => none, "2026/10/12", "u-u-i-d", "bkt", 7⟩

def c2args : FetchArgs := ⟨"https://example.com", "commoncrawl", none, none, "CC-MAIN-2025-51"⟩

def c2hit : CommonCrawlHit := ⟨"f.warc.gz", 100, 9, some "NEW"⟩

def c2updated : CrawledPage :=
  ⟨1, "https://example.com", "commoncrawl", none, 7, some "NEW",
   "2026/10/12/u-u-i-d-crawl-example.com.html", "bkt", none⟩

def c2eff : Effects :=
  ⟨[⟨"https://data.commoncrawl.org/f.warc.gz", "bytes=100-108"⟩],
   [⟨"2026/10/12/u-u-i-d-crawl-example.com.html", strToBytes "<html>hi", "text/html"⟩]⟩

def c2dbInsert : DB := ⟨[], 1⟩

theorem update_in_place_or_insert_witness :
    DB.WF c2db ∧
    getByUrl c2db c2args.url c2args.data_origin c2args.target_application =
      Except.ok (some c2row) ∧
    lookupCommonCrawlHit c2env.cdxBody c2args.url c2args.crawl = Except.ok c2hit ∧
    shortCircuitRow (some c2row) c2hit.digest = none ∧
    fetchFromCommonCrawlAndPersist c2env 1 c2db c2args =
      some (c2eff, ⟨[c2updated], 2⟩, Except.ok c2updated) ∧
    c2updated.id = c2row.id ∧
    getByUrl c2dbInsert c2args.url c2args.data_origin c2args.target_application =
      Except.ok none ∧
    fetchFromCommonCrawlAndPersist c2env 1 c2dbInsert c2args =
      some (c2eff, ⟨[c2updated], 2⟩, Except.ok c2updated) ∧
    c2updated.id = c2dbInsert.nextId :=
  ⟨by unfold DB.WF; decide, rfl, rfl, rfl, rfl,
   (update_in_place_or_insert.1 c2env 1 c2db c2args c2row c2hit c2eff ⟨[c2updated], 2⟩
      c2updated (by unfold DB.WF; decide) rfl rfl rfl rfl).1,
   rfl, rfl,
   (update_in_place_or_insert.2 c2env 1 c2dbInsert c2args c2eff ⟨[c2updated], 2⟩
      c2updated rfl rfl).1⟩

theorem extractSteps_content_type :
    ∀ (gunzip : Bytes → Option Bytes) (fuel : Nat) (headers : List (String × String))
      (body : Bytes) (res : Except String (Bytes × String)),
      extractSteps gunzip fuel headers body = some res →
      ((res = Except.error ("Non-HTML content-type in WARC response: " ++
          dictGetD headers "content-type" "text/html")) ↔
        hasSub "text/html" (pyLower (dictGetD headers "content-type" "text/html")) = false) ∧
      (∀ (b : Bytes) (ct : String), res = Except.ok (b, ct) →
        ct = dictGetD headers "content-type" "text/html") := by
  intro gunzip fuel headers body res h
  simp only [extractSteps] at h
  rcases hs : (if pyLower (dictGetD headers "transfer-encoding" "") = "chunked"
      then unchunkFuel body fuel 0 [] else some body) with _ | body1
  · simp [hs] at h
  · simp only [hs] at h
    by_cases hct :
      hasSub "text/html" (pyLower (dictGetD headers "content-type" "text/html")) = true
    · rw [if_pos hct] at h
      have hres := (Option.some.injEq _ _).mp h
      constructor
      · constructor
        · intro he; rw [← hres] at he; cases he
        · intro hf; rw [hct] at hf; cases hf
      · intro b ct hbc
        rw [← hres] at hbc
        injection hbc with h1
        exact (congrArg Prod.snd h1).symm
    · rw [if_neg hct] at h
      have hres := (Option.some.injEq _ _).mp h
      constructor
      · constructor
        · intro _; exact Bool.not_eq_true _ ▸ (Bool.eq_false_iff.mpr hct)
        · intro _; exact hres.symm
      · intro b ct hbc
        rw [← hres] at hbc
        cases hbc

/-- C6: the parser defaults the declared content type to text/html when
    the embedded header block lacks one, and fails with the ParseError
    exactly when the (defaulted) content-type does not contain
    "text/html" case-insensitively; and when extraction fails inside
    fetch_from_common_crawl_and_persist no object-store write and no row
    write happens (one container fetch, store unchanged). -/
theorem content_type_gate :
    (∀ (record : Bytes) (gunzip : Bytes → Option Bytes) (fuel : Nat)
        (hdrs : List (String × String)) (res : Except String (Bytes × String)),
        recordHeaders record = some hdrs →
        extractHtmlFromWarc gunzip fuel record = some res →
        ((res = Except.error ("Non-HTML content-type in WARC response: " ++
            dictGetD hdrs "content-type" "text/html")) ↔
          hasSub "text/html" (pyLower (dictGetD hdrs "content-type" "text/html")) = false) ∧
        (∀ (b : Bytes) (ct : String), res = Except.ok (b, ct) →
          ct = dictGetD hdrs "content-type" "text/html")) ∧
    (∀ (env : FetchEnv) (fuel : Nat) (db : DB) (a : FetchArgs)
        (existing : Option CrawledPage) (hit : CommonCrawlHit) (e : String),
        getByUrl db a.url a.data_origin a.target_application = Except.ok existing →
        lookupCommonCrawlHit env.cdxBody a.url a.crawl = Except.ok hit →
        shortCircuitRow existing hit.digest = none →
        extractHtmlFromWarc env.gunzip fuel (fetchWarcRecord env hit).2 =
          some (Except.error e) →
        fetchFromCommonCrawlAndPersist env fuel db a =
          some (⟨[(fetchWarcRecord env hit).1], []⟩, db, Except.error e)) := by
  constructor
  · intro record gunzip fuel hdrs res hH hE
    rcases hsep : bytesFind (warcPayload record) [13, 10, 13, 10] 0 with _ | sep
    · simp only [recordHeaders, hsep] at hH
      cases hH
    · simp only [recordHeaders, hsep, Option.some.injEq] at hH
      simp only [extractHtmlFromWarc, hsep] at hE
      rw [hH] at hE
      exact extractSteps_content_type gunzip fuel hdrs _ res hE
  · intro env fuel db a existing hit e hG hL hsc hx
    simp only [fetchFromCommonCrawlAndPersist, hG, hL, hsc, hx]

def c6record : Bytes :=
  strToBytes "W\r\n\r\nHTTP/1.1 200 OK\r\nContent-Type: application/json\r\n\r\nxx"

def c6row : CrawledPage :=
  ⟨1, "https://example.com", "commoncrawl", none, 5, some "OLD", "old/key", "bkt", none⟩

def c6db : DB := ⟨[c6row], 2⟩

def c6env : FetchEnv :=
  ⟨"\x7b\"filename\": \"f.warc.gz\", \"offset\": \"100\", \"length\": \"9\", \"digest\": \"NEW\"\x7d",
   c6record, fun _ => none, "2026/10/12", "u-u-i-d", "bkt", 7⟩

def c6args : FetchArgs := ⟨"https://example.com", "commoncrawl", none, none, "CC-MAIN-2025-51"⟩

def c6hit : CommonCrawlHit := ⟨"f.warc.gz", 100, 9, some "NEW"⟩

theorem content_type_gate_witness :
    recordHeaders c6record = some [("content-type", "application/json")] ∧
    extractHtmlFromWarc (fun _ => none) 0 c6record =
      some (Except.error "Non-HTML content-type in WARC response: application/json") ∧
    hasSub "text/html" (pyLower "application/json") = false ∧
    (Except.error "Non-HTML content-type in WARC response: application/json" :
        Except String (Bytes × String)) =
      Except.error ("Non-HTML content-type in WARC response: " ++
        dictGetD [("content-type", "application/json")] "content-type" "text/html") ∧
    fetchFromCommonCrawlAndPersist c6env 0 c6db c6args =
      some (⟨[(fetchWarcRecord c6env c6hit).1], []⟩, c6db,
        Except.error "Non-HTML content-type in WARC response: application/json") :=
  ⟨rfl, rfl, rfl,
   ((content_type_gate.1 c6record (fun _ => none) 0 [("content-type", "application/json")]
      (Except.error "Non-HTML content-type in WARC response: application/json")
      rfl rfl).1).mpr rfl,
   content_type_gate.2 c6env 0 c6db c6args (some c6row) c6hit
     "Non-HTML content-type in WARC response: application/json" rfl rfl rfl rfl⟩

theorem strAppend_assoc (a b c : String) : (a ++ b) ++ c = a ++ (b ++ c) := by
  cases a with
  | mk da =>
      cases b with
      | mk db =>
          cases c with
          | mk dc => exact congrArg String.mk (List.append_assoc da db dc)

theorem hasSub_mid4 (s a b c : String) : hasSub s (a ++ s ++ b ++ c) = true := by
  rw [strAppend_assoc (a ++ s) b c]
  exact hasSub_mid s a (b ++ c)

def c7body : String := "\x7b\"filename\": \"f\", \"offset\": \"x\", \"length\": \"1\"\x7d"

/-- C7 (counterexample): on a one-line response whose object carries all
    three fields (filename non-empty) but whose offset fails integer
    conversion, the lookup fails — with the int() ValueError message,
    which does not reference the queried URL — although the claim's
    conditions for failure do not hold at this input. -/
theorem index_lookup_cex :
    lookupCommonCrawlHit c7body "https://example.com" "CC-MAIN-2025-51" =
      Except.error "invalid literal for int() with base 10: \x27x\x27" ∧
    nonBlankLines c7body = [c7body] ∧
    jsonLoadsFlat c7body =
      Except.ok [("filename", "f"), ("offset", "x"), ("length", "1")] ∧
    assocGet [("filename", "f"), ("offset", "x"), ("length", "1")] "filename" = some "f" ∧
    assocGet [("filename", "f"), ("offset", "x"), ("length", "1")] "offset" = some "x" ∧
    assocGet [("filename", "f"), ("offset", "x"), ("length", "1")] "length" = some "1" ∧
    hasSub "https://example.com" "invalid literal for int() with base 10: \x27x\x27" = false :=
  ⟨rfl, rfl, rfl, rfl, rfl, rfl, rfl⟩

/-- C7 (amended): provided the first non-blank line parses as a JSON
    object, Index Lookup fails exactly when (a) the response has zero
    non-blank lines — message referencing the queried URL and the crawl
    id; (b) the line's filename is absent or empty, or its offset or
    length is absent — message referencing the URL; or (c) a present
    offset or length fails Python integer conversion — int() ValueError,
    message not built from the URL; a JSON decode error propagates as
    raised; otherwise the lookup succeeds and the CrawlHit carries the
    line's filename, integer offset and length, and optional digest. -/
theorem index_lookup_failure_modes :
    (∀ (body url crawl : String), nonBlankLines body = [] →
        lookupCommonCrawlHit body url crawl =
          Except.error ("No Common Crawl CDX results for url=" ++ url ++
            " crawl=" ++ crawl) ∧
        hasSub url ("No Common Crawl CDX results for url=" ++ url ++
          " crawl=" ++ crawl) = true ∧
        hasSub crawl ("No Common Crawl CDX results for url=" ++ url ++
          " crawl=" ++ crawl) = true) ∧
    (∀ (body url crawl ln : String) (rest : List String)
        (obj : List (String × String)),
        nonBlankLines body = ln :: rest → jsonLoadsFlat ln = Except.ok obj →
        (assocGet obj "filename" = none ∨ assocGet obj "filename" = some "" ∨
         assocGet obj "offset" = none ∨ assocGet obj "length" = none) →
        lookupCommonCrawlHit body url crawl =
          Except.error ("Invalid CDX response for url=" ++ url ++ ": " ++
            pyReprObj obj) ∧
        hasSub url ("Invalid CDX response for url=" ++ url ++ ": " ++
          pyReprObj obj) = true) ∧
    (∀ (body url crawl ln : String) (rest : List String)
        (obj : List (String × String)) (f o l : String),
        nonBlankLines body = ln :: rest → jsonLoadsFlat ln = Except.ok obj →
        assocGet obj "filename" = some f → ¬ f = "" →
        assocGet obj "offset" = some o → assocGet obj "length" = some l →
        pyIntDec o = none →
        lookupCommonCrawlHit body url crawl =
          Except.error ("invalid literal for int() with base 10: " ++ pyReprStr o)) ∧
    (∀ (body url crawl ln : String) (rest : List String)
        (obj : List (String × String)) (f o l : String) (oi : Int),
        nonBlankLines body = ln :: rest → jsonLoadsFlat ln = Except.ok obj →
        assocGet obj "filename" = some f → ¬ f = "" →
        assocGet obj "offset" = some o → assocGet obj "length" = some l →
        pyIntDec o = some oi → pyIntDec l = none →
        lookupCommonCrawlHit body url crawl =
          Except.error ("invalid literal for int() with base 10: " ++ pyReprStr l)) ∧
    (∀ (body url crawl ln : String) (rest : List String)
        (obj : List (String × String)) (f o l : String) (oi li : Int),
        nonBlankLines body = ln :: rest → jsonLoadsFlat ln = Except.ok obj →
        assocGet obj "filename" = some f → ¬ f = "" →
        assocGet obj "offset" = some o → assocGet obj "length" = some l →
        pyIntDec o = some oi → pyIntDec l = some li →
        lookupCommonCrawlHit body url crawl =
          Except.ok ⟨f, oi, li, assocGet obj "digest"⟩) ∧
    (∀ (body url crawl ln e : String) (rest : List String),
        nonBlankLines body = ln :: rest → jsonLoadsFlat ln = Except.error e →
        lookupCommonCrawlHit body url crawl = Except.error e) := by
  refine ⟨?_, ?_, ?_, ?_, ?_, ?_⟩
  · intro body url crawl h
    refine ⟨?_, hasSub_mid4 url "No Common Crawl CDX results for url=" " crawl=" crawl,
      hasSub_suffix crawl _⟩
    simp only [lookupCommonCrawlHit, h]
  · intro body url crawl ln rest obj hnb hjson hbad
    refine ⟨?_, hasSub_mid4 url "Invalid CDX response for url=" ": " (pyReprObj obj)⟩
    simp only [lookupCommonCrawlHit, hnb, hjson]
    rcases hfn : assocGet obj "filename" with _ | f <;>
      rcases hoff : assocGet obj "offset" with _ | o <;>
        rcases hlen : assocGet obj "length" with _ | l <;>
          simp only [hfn, hoff, hlen]
    rcases hbad with hb | hb | hb | hb
    · rw [hfn] at hb; cases hb
    · rw [hfn] at hb
      have hf : f = "" := by injection hb
      rw [if_pos hf]
    · rw [hoff] at hb; cases hb
    · rw [hlen] at hb; cases hb
  · intro body url crawl ln rest obj f o l hnb hjson hfn hf hoff hlen hint
    simp only [lookupCommonCrawlHit, hnb, hjson, hfn, hoff, hlen, hint, if_neg hf]
  · intro body url crawl ln rest obj f o l oi hnb hjson hfn hf hoff hlen hio hint
    simp only [lookupCommonCrawlHit, hnb, hjson, hfn, hoff, hlen, hio, hint, if_neg hf]
  · intro body url crawl ln rest obj f o l oi li hnb hjson hfn hf hoff hlen hio hil
    simp only [lookupCommonCrawlHit, hnb, hjson, hfn, hoff, hlen, hio, hil, if_neg hf]
  · intro body url crawl ln e rest hnb hjson
    simp only [lookupCommonCrawlHit, hnb, hjson]

def c7body2 : String := "\x7b\"offset\": \"1\"\x7d"

def c7body4 : String := "\x7b\"filename\": \"f\", \"offset\": \"1\", \"length\": \"y\"\x7d"

def c7body5 : String :=
  "\x7b\"filename\": \"f.warc.gz\", \"offset\": \"100\", \"length\": \"9\", \"digest\": \"SHA1AAA\"\x7d"

theorem index_lookup_failure_modes_witness :
    lookupCommonCrawlHit "" "u1" "c1" =
      Except.error ("No Common Crawl CDX results for url=" ++ "u1" ++ " crawl=" ++ "c1") ∧
    lookupCommonCrawlHit c7body2 "u2" "c2" =
      Except.error ("Invalid CDX response for url=" ++ "u2" ++ ": " ++
        pyReprObj [("offset", "1")]) ∧
    lookupCommonCrawlHit c7body "u3" "c3" =
      Except.error ("invalid literal for int() with base 10: " ++ pyReprStr "x") ∧
    lookupCommonCrawlHit c7body4 "u4" "c4" =
      Except.error ("invalid literal for int() with base 10: " ++ pyReprStr "y") ∧
    lookupCommonCrawlHit c7body5 "u5" "c5" =
      Except.ok ⟨"f.warc.gz", 100, 9, some "SHA1AAA"⟩ ∧
    lookupCommonCrawlHit "nope" "u6" "c6" = Except.error "Expecting value" :=
  ⟨(index_lookup_failure_modes.1 "" "u1" "c1" rfl).1,
   (index_lookup_failure_modes.2.1 c7body2 "u2" "c2" c7body2 [] [("offset", "1")]
      rfl rfl (Or.inl rfl)).1,
   index_lookup_failure_modes.2.2.1 c7body "u3" "c3" c7body []
     [("filename", "f"), ("offset", "x"), ("length", "1")] "f" "x" "1"
     rfl rfl rfl (by decide) rfl rfl rfl,
   index_lookup_failure_modes.2.2.2.1 c7body4 "u4" "c4" c7body4 []
     [("filename", "f"), ("offset", "1"), ("length", "y")] "f" "1" "y" 1
     rfl rfl rfl (by decide) rfl rfl rfl rfl,
   index_lookup_failure_modes.2.2.2.2.1 c7body5 "u5" "c5" c7body5 []
     [("filename", "f.warc.gz"), ("offset", "100"), ("length", "9"), ("digest", "SHA1AAA")]
     "f.warc.gz" "100" "9" 100 9 rfl rfl rfl (by decide) rfl rfl rfl rfl,
   index_lookup_failure_modes.2.2.2.2.2 "nope" "u6" "c6" "nope" "Expecting value" []
     rfl rfl⟩
